import Mathlib

/-!
Verification of the puzzlepiece parameter/scripting layer.

The repository ships its documentation (`docs/source/*.rst`, `tutorial.ipynb`,
READMEs); the Python implementation modules (`puzzlepiece/param.py`,
`puzzlepiece/parse.py`, `puzzlepiece/puzzle.py`) are not among the sources, so
the definitions below model those modules from the specification's contracts.
Python `None` as a cached value is `Option.none`; a user setter/getter that can
raise is modelled as returning `Except`; a setter that "returns nothing"
returns `Except.ok Option.none`.
-/

set_option autoImplicit false

namespace Puzzlepiece

variable {α ε : Type}

/-- Modelled from the spec: `puzzlepiece.param.BaseParam` (module `param.py`
absent from the sources).  A named value holder with an internal cached value
(`Python None` at first), an input/display widget value, and optional getter
and/or setter callables.  A setter takes the new value and may return a value
or nothing (`Option`); either may raise (`Except`). -/
structure BaseParam (α ε : Type) where
  value : Option α
  input : α
  setter : Option (α → Except ε (Option α))
  getter : Option (Except ε α)

/-- Outcome of one parameter operation: the value returned to the caller (the
raised exception propagates as `Except.error`), the parameter state afterwards,
how many times the getter callable was invoked, and the arguments the setter
callable was invoked with. -/
structure OpResult (α ε : Type) where
  result : Except ε (Option α)
  state : BaseParam α ε
  getterCalls : Nat
  setterArgs : List α

/-- Modelled from the spec: the param-constructing decorators (`pzp.param.text`,
`spinbox`, ...) receive a default value which populates the input widget; the
internal cache starts empty (Python `None`). -/
def mkParam (d : α) (s : Option (α → Except ε (Option α)))
    (g : Option (Except ε α)) : BaseParam α ε :=
  ⟨none, d, s, g⟩

/-- Modelled from the spec: `BaseParam.get_value` invokes the getter (if
present), caches and returns its result; with no getter it returns the cached
value unchanged.  A getter exception propagates and leaves the cache alone. -/
def get_value (p : BaseParam α ε) : OpResult α ε :=
  match p.getter with
  | some (Except.ok r) => ⟨Except.ok (some r), { p with value := some r, input := r }, 1, []⟩
  | some (Except.error e) => ⟨Except.error e, p, 1, []⟩
  | none => ⟨Except.ok p.value, p, 0, []⟩

/-- Modelled from the spec: `BaseParam.set_value v` invokes the setter (if
present) with `v`; a returned value is cached directly; on `None` the getter
(if present) is invoked to obtain the authoritative value, else `v` itself is
cached.  With only a getter the call is ignored (nothing mutated,
implementation-defined per the spec); with neither callable `v` is cached
directly.  Setter/getter exceptions propagate and leave the cache alone. -/
def set_value (p : BaseParam α ε) (v : α) : OpResult α ε :=
  match p.setter with
  | some s =>
    match s v with
    | Except.error e => ⟨Except.error e, p, 0, [v]⟩
    | Except.ok (some r) => ⟨Except.ok (some r), { p with value := some r, input := r }, 0, [v]⟩
    | Except.ok none =>
      match p.getter with
      | some (Except.ok r) => ⟨Except.ok (some r), { p with value := some r, input := r }, 1, [v]⟩
      | some (Except.error e) => ⟨Except.error e, p, 1, [v]⟩
      | none => ⟨Except.ok (some v), { p with value := some v, input := v }, 0, [v]⟩
  | none =>
    match p.getter with
    | some _ => ⟨Except.ok p.value, p, 0, []⟩
    | none => ⟨Except.ok (some v), { p with value := some v, input := v }, 0, []⟩

/-- The operations a caller can perform on one parameter: reading the `.value`
accessor, `set_value`, and `get_value`. -/
inductive ParamOp (α : Type) where
  | readValue
  | setValue (v : α)
  | getValue
  deriving DecidableEq

/-- One operation applied to a parameter.  Reading `.value` is a plain field
access: it invokes nothing and mutates nothing. -/
def applyOp (p : BaseParam α ε) : ParamOp α → OpResult α ε
  | ParamOp.readValue => ⟨Except.ok p.value, p, 0, []⟩
  | ParamOp.setValue v => set_value p v
  | ParamOp.getValue => get_value p

/-- The parameter state after a sequence of operations. -/
def runOps (p : BaseParam α ε) : List (ParamOp α) → BaseParam α ε
  | [] => p
  | op :: ops => runOps (applyOp p op).state ops

theorem runOps_of_reads (p : BaseParam α ε) (ops : List (ParamOp α))
    (h : ∀ op ∈ ops, op = ParamOp.readValue) : runOps p ops = p := by
  induction ops generalizing p with
  | nil => rfl
  | cons op ops ih =>
    have hop := h op (List.mem_cons_self op ops)
    subst hop
    exact ih p fun o ho => h o (List.mem_cons_of_mem _ ho)

theorem runOps_of_no_set_no_getter (p : BaseParam α ε) (ops : List (ParamOp α))
    (hg : p.getter = none) (h : ∀ v, ParamOp.setValue v ∉ ops) : runOps p ops = p := by
  induction ops generalizing p with
  | nil => rfl
  | cons op ops ih =>
    have hstep : (applyOp p op).state = p := by
      cases op with
      | readValue => rfl
      | setValue v => exact absurd (List.mem_cons_self _ _) (h v)
      | getValue => simp [applyOp, get_value, hg]
    rw [runOps, hstep]
    exact ih p hg fun v hv => h v (List.mem_cons_of_mem _ hv)

/-- A setter that accepts the value and returns nothing (Python `None`). -/
def wSetterNone : Nat → Except Nat (Option Nat) := fun _ => Except.ok none

/-- A parameter with a setter that returns nothing and no getter. -/
def wParamSet : BaseParam Nat Nat := mkParam 0 (some wSetterNone) none

/-- A parameter with only a getter (a readout param); the getter returns 7. -/
def wParamGet : BaseParam Nat Nat := mkParam 0 none (some (Except.ok 7))

/-- C1: `set_value v` invokes the setter (if present) with `v`; a value returned
by the setter is cached directly; on `None` the getter (if present) is invoked
and its result cached; with no getter, `v` itself is cached. -/
theorem c1_set_value_reconciliation (p : BaseParam α ε) (v : α)
    (s : α → Except ε (Option α)) (hs : p.setter = some s) :
    (set_value p v).setterArgs = [v]
    ∧ (∀ r, s v = Except.ok (some r) →
        (set_value p v).state.value = some r ∧ (set_value p v).result = Except.ok (some r))
    ∧ (∀ r, s v = Except.ok none → p.getter = some (Except.ok r) →
        (set_value p v).getterCalls = 1 ∧ (set_value p v).state.value = some r)
    ∧ (s v = Except.ok none → p.getter = none →
        (set_value p v).state.value = some v ∧ (set_value p v).result = Except.ok (some v)) := by
  refine ⟨?_, ?_, ?_, ?_⟩
  · cases hsv : s v with
    | error e => simp [set_value, hs, hsv]
    | ok o =>
      cases o with
      | some r => simp [set_value, hs, hsv]
      | none =>
        cases hgg : p.getter with
        | none => simp [set_value, hs, hsv, hgg]
        | some g => cases g <;> simp [set_value, hs, hsv, hgg]
  · intro r hr
    simp [set_value, hs, hr]
  · intro r h1 h2
    simp [set_value, hs, h1, h2]
  · intro h1 h2
    simp [set_value, hs, h1, h2]

/-- Witness for C1 at a concrete parameter whose setter returns nothing. -/
theorem c1_witness :
    (set_value wParamSet 5).setterArgs = [5]
    ∧ (set_value wParamSet 5).state.value = some 5 := by
  have h := c1_set_value_reconciliation wParamSet 5 wSetterNone rfl
  exact ⟨h.1, (h.2.2.2 rfl rfl).1⟩

/-- C2: `get_value` invokes the getter if present, caches and returns its
result; with no getter it returns the cached value and changes nothing. -/
theorem c2_get_value_caches_getter_result (p : BaseParam α ε) :
    (∀ g, p.getter = some g → (get_value p).getterCalls = 1)
    ∧ (∀ r, p.getter = some (Except.ok r) →
        (get_value p).state.value = some r ∧ (get_value p).result = Except.ok (some r))
    ∧ (p.getter = none →
        (get_value p).result = Except.ok p.value ∧ (get_value p).state = p
        ∧ (get_value p).getterCalls = 0) := by
  refine ⟨?_, ?_, ?_⟩
  · intro g hg
    cases g <;> simp [get_value, hg]
  · intro r hg
    simp [get_value, hg]
  · intro hg
    simp [get_value, hg]

/-- Witness for C2 at a concrete readout parameter whose getter returns 7. -/
theorem c2_witness :
    (get_value wParamGet).state.value = some 7 ∧ (get_value wParamGet).getterCalls = 1 :=
  ⟨((c2_get_value_caches_getter_result wParamGet).2.1 7 rfl).1,
    (c2_get_value_caches_getter_result wParamGet).1 (Except.ok 7) rfl⟩

/-- C3: with a setter returning `None` and no getter, after `set_value v` the
cached value is `v` and `get_value` returns `v` leaving the cache at `v`. -/
theorem c3_set_then_get_roundtrip (p : BaseParam α ε) (v : α)
    (s : α → Except ε (Option α)) (hs : p.setter = some s)
    (hret : s v = Except.ok none) (hg : p.getter = none) :
    (set_value p v).state.value = some v
    ∧ (get_value (set_value p v).state).result = Except.ok (some v)
    ∧ (get_value (set_value p v).state).state.value = some v := by
  refine ⟨?_, ?_, ?_⟩ <;> simp [set_value, hs, hret, hg, get_value]

/-- Witness for C3: set 5 then get on a setter-returning-`None` parameter. -/
theorem c3_witness :
    (set_value wParamSet 5).state.value = some 5
    ∧ (get_value (set_value wParamSet 5).state).result = Except.ok (some 5) := by
  have h := c3_set_then_get_roundtrip wParamSet 5 wSetterNone rfl rfl rfl
  exact ⟨h.1, h.2.1⟩

/-- C4: over any sequence of operations the cached value changes only at a
`set_value` or `get_value` step; reading `.value` leaves the parameter
untouched, invokes no getter, and returns the cached value. -/
theorem c4_cache_changes_only_via_set_get (p : BaseParam α ε) (ops : List (ParamOp α)) :
    ((runOps p ops).value ≠ p.value →
      ∃ op, op ∈ ops ∧ (op = ParamOp.getValue ∨ ∃ v, op = ParamOp.setValue v))
    ∧ (applyOp p ParamOp.readValue).state = p
    ∧ (applyOp p ParamOp.readValue).getterCalls = 0
    ∧ (applyOp p ParamOp.readValue).result = Except.ok p.value := by
  refine ⟨?_, rfl, rfl, rfl⟩
  intro h
  rcases em (∀ op ∈ ops, op = ParamOp.readValue) with hall | hnot
  · exact absurd (congrArg BaseParam.value (runOps_of_reads p ops hall)) h
  · push_neg at hnot
    obtain ⟨op, hop, hne⟩ := hnot
    refine ⟨op, hop, ?_⟩
    cases op with
    | readValue => exact absurd rfl hne
    | setValue v => exact Or.inr ⟨v, rfl⟩
    | getValue => exact Or.inl rfl

/-- Witness for C4: a `get_value` on a readout parameter changes the cache, and
the changing operation is indeed found in the sequence. -/
theorem c4_witness :
    ∃ op, op ∈ [ParamOp.getValue (α := Nat)]
      ∧ (op = ParamOp.getValue ∨ ∃ v, op = ParamOp.setValue v) :=
  (c4_cache_changes_only_via_set_get wParamGet [ParamOp.getValue]).1 (by decide)

/-- C5: on a parameter with only a getter, `set_value` is ignored (nothing
mutated, setter never invoked) and only `get_value` can change the cache. -/
theorem c5_getter_only_set_value_ignored (p : BaseParam α ε) (g : Except ε α)
    (hs : p.setter = none) (hg : p.getter = some g) :
    (∀ v, (set_value p v).state = p ∧ (set_value p v).setterArgs = []
      ∧ (set_value p v).state.value = p.value)
    ∧ (∀ op, (applyOp p op).state.value ≠ p.value → op = ParamOp.getValue) := by
  constructor
  · intro v
    refine ⟨?_, ?_, ?_⟩ <;> simp [set_value, hs, hg]
  · intro op h
    cases op with
    | readValue => exact absurd rfl h
    | setValue v => exact absurd (by simp [applyOp, set_value, hs, hg]) h
    | getValue => rfl

/-- Witness for C5: setting the concrete readout parameter leaves it alone. -/
theorem c5_witness :
    (set_value wParamGet 5).state.value = wParamGet.value
    ∧ (set_value wParamGet 5).setterArgs = [] := by
  have h := c5_getter_only_set_value_ignored wParamGet (Except.ok 7) rfl rfl
  exact ⟨(h.1 5).2.2, (h.1 5).2.1⟩

/-- C9: whenever `set_value` returns a value (no exception), that returned
value is exactly the parameter's new cached value. -/
theorem c9_set_value_returns_new_value (p : BaseParam α ε) (v : α) (w : Option α)
    (h : (set_value p v).result = Except.ok w) :
    (set_value p v).state.value = w := by
  cases hs : p.setter with
  | none =>
    cases hg : p.getter with
    | none =>
      simp [set_value, hs, hg] at h ⊢
      exact h
    | some g =>
      simp [set_value, hs, hg] at h ⊢
      exact h
  | some s =>
    cases hsv : s v with
    | error e => simp [set_value, hs, hsv] at h
    | ok o =>
      cases o with
      | some r =>
        simp [set_value, hs, hsv] at h ⊢
        exact h
      | none =>
        cases hg : p.getter with
        | none =>
          simp [set_value, hs, hsv, hg] at h ⊢
          exact h
        | some g =>
          cases g with
          | ok r =>
            simp [set_value, hs, hsv, hg] at h ⊢
            exact h
          | error e => simp [set_value, hs, hsv, hg] at h

/-- Witness for C9 at a concrete parameter: the returned value is the cache. -/
theorem c9_witness : (set_value wParamSet 6).state.value = some 6 :=
  c9_set_value_returns_new_value wParamSet 6 (some 6) rfl

/-- A setter that echoes the value back (acknowledges the set). -/
def wSetterEcho : Nat → Except Nat (Option Nat) := fun x => Except.ok (some x)

/-- A parameter created with default 3, an echoing setter and a getter
returning 7. -/
def wParamBoth : BaseParam Nat Nat := mkParam 3 (some wSetterEcho) (some (Except.ok 7))

/-- A setter that raises exception 13. -/
def wSetterRaise : Nat → Except Nat (Option Nat) := fun _ => Except.error 13

/-- A parameter whose setter raises exception 13. -/
def wParamRaise : BaseParam Nat Nat := mkParam 0 (some wSetterRaise) none

/-- Counterexample to C10 as stated: a parameter created with a setter (and a
getter) has an empty cache at construction, yet a single `get_value` populates
the cache while the setter was never invoked — so the cache does not stay
`None` "until the setter is first invoked via `set_value`". -/
theorem c10_counterexample :
    wParamBoth.setter.isSome = true
    ∧ wParamBoth.value = none
    ∧ (get_value wParamBoth).state.value = some 7
    ∧ (get_value wParamBoth).state.value ≠ none
    ∧ (get_value wParamBoth).setterArgs = [] := by
  refine ⟨rfl, rfl, rfl, by decide, rfl⟩

/-- C10 (amended): a parameter created with a setter and a default value has
cached value `None` at construction — the default populates the input widget,
not the cache — and when the parameter has no getter the cache stays `None`
until the first `set_value`; a getter, when present, can also populate the
cache via `get_value`. -/
theorem c10_default_not_cached (d : α) (s : α → Except ε (Option α))
    (g : Option (Except ε α)) (p : BaseParam α ε) (ops : List (ParamOp α)) :
    (mkParam d (some s) g).value = none
    ∧ (mkParam d (some s) g).input = d
    ∧ (p.getter = none → p.value = none → (runOps p ops).value ≠ none →
        ∃ v, ParamOp.setValue v ∈ ops) := by
  refine ⟨rfl, rfl, ?_⟩
  intro hg hv hne
  rcases em (∃ v, ParamOp.setValue v ∈ ops) with h | h
  · exact h
  · exfalso
    push_neg at h
    rw [runOps_of_no_set_no_getter p ops hg h, hv] at hne
    exact hne rfl

/-- Witness for the amended C10 at concrete parameters. -/
theorem c10_witness :
    (mkParam 3 (some wSetterEcho) (some (Except.ok 7)) : BaseParam Nat Nat).value = none
    ∧ ∃ v, ParamOp.setValue v ∈ [ParamOp.setValue 5] := by
  have h := c10_default_not_cached 3 wSetterEcho (some (Except.ok 7)) wParamSet
    [ParamOp.setValue 5]
  exact ⟨h.1, h.2.2 rfl rfl (by decide)⟩

/-- Modelled from the spec: the outcome of a GUI callback under `Puzzle`'s
exception handling (`custom_excepthook`, module `puzzle.py` absent from the
sources): it completes normally, or a raised exception is intercepted by the
installed custom exception hook, or the exception is fatal. -/
inductive CallbackOutcome (ε : Type) where
  | completed
  | intercepted (e : ε)
  | fatal (e : ε)
  deriving DecidableEq

/-- Modelled from the spec: running a GUI callback with an optional custom
exception hook installed; an exception raised by the callback is handed to the
hook when one is present and is fatal otherwise. -/
def runGuiCallback (hook : Option (ε → Unit)) (r : Except ε Unit) : CallbackOutcome ε :=
  match r with
  | Except.ok _ => CallbackOutcome.completed
  | Except.error e =>
    match hook with
    | some _ => CallbackOutcome.intercepted e
    | none => CallbackOutcome.fatal e

/-- C7: a setter or getter exception propagates unchanged out of `set_value` /
`get_value` (raises exactly when the user callable raises, cache untouched),
and the custom exception hook intercepts otherwise-fatal callback
exceptions. -/
theorem c7_exceptions_propagate (p : BaseParam α ε) (v : α)
    (s : α → Except ε (Option α)) (e : ε) (h : ε → Unit) :
    (p.setter = some s → s v = Except.error e →
      (set_value p v).result = Except.error e ∧ (set_value p v).state = p)
    ∧ (p.getter = some (Except.error e) →
      (get_value p).result = Except.error e ∧ (get_value p).state = p)
    ∧ (p.setter = some s → s v = Except.ok none → p.getter = some (Except.error e) →
      (set_value p v).result = Except.error e ∧ (set_value p v).state = p)
    ∧ runGuiCallback (some h) (Except.error e) = CallbackOutcome.intercepted e
    ∧ runGuiCallback none (Except.error e) = CallbackOutcome.fatal e
    ∧ (∀ r : Except ε Unit, runGuiCallback (some h) r ≠ CallbackOutcome.fatal e) := by
  refine ⟨?_, ?_, ?_, rfl, rfl, ?_⟩
  · intro hs hsv
    constructor <;> simp [set_value, hs, hsv]
  · intro hg
    constructor <;> simp [get_value, hg]
  · intro hs hsv hg
    constructor <;> simp [set_value, hs, hsv, hg]
  · intro r
    cases r <;> simp [runGuiCallback]

/-- Witness for C7: a concrete raising setter propagates its exception, and a
concrete hook intercepts it. -/
theorem c7_witness :
    (set_value wParamRaise 5).result = Except.error 13
    ∧ runGuiCallback (some fun _ : Nat => ()) (Except.error 13)
        = CallbackOutcome.intercepted 13 := by
  have h := c7_exceptions_propagate wParamRaise 5 wSetterRaise 13 (fun _ => ())
  exact ⟨(h.1 rfl rfl).1, h.2.2.2.1⟩

/-- Modelled from the spec: splitting a script line at `:` separators (Python
`str.split`), over strings modelled as lists of characters. -/
def splitColon : List Char → List (List Char)
  | [] => [[]]
  | c :: cs =>
    match splitColon cs with
    | [] => [[]]
    | w :: ws => if c = ':' then [] :: w :: ws else (c :: w) :: ws

/-- Modelled from the spec: joining fields back with `:` separators (Python
`str.join`), the inverse of `splitColon`. -/
def joinColon : List (List Char) → List Char
  | [] => []
  | w :: ws =>
    match ws with
    | [] => w
    | _ :: _ => w ++ ':' :: joinColon ws

theorem joinColon_single (w : List Char) : joinColon [w] = w := rfl

theorem joinColon_cons_cons (w x : List Char) (ws : List (List Char)) :
    joinColon (w :: x :: ws) = w ++ ':' :: joinColon (x :: ws) := rfl

theorem splitColon_ne_nil (l : List Char) : splitColon l ≠ [] := by
  cases l with
  | nil => simp [splitColon]
  | cons c cs =>
    simp only [splitColon]
    cases h : splitColon cs with
    | nil => simp
    | cons w ws => by_cases hc : c = ':' <;> simp [hc]

theorem splitColon_cons (c : Char) (cs : List Char) :
    splitColon (c :: cs) = match splitColon cs with
      | [] => [[]]
      | w :: ws => if c = ':' then [] :: w :: ws else (c :: w) :: ws := rfl

theorem splitColon_append (xs ys : List Char) (h : ':' ∉ xs) :
    splitColon (xs ++ ':' :: ys) = xs :: splitColon ys := by
  induction xs with
  | nil =>
    rw [List.nil_append, splitColon_cons]
    cases hsp : splitColon ys with
    | nil => exact absurd hsp (splitColon_ne_nil ys)
    | cons w ws => simp
  | cons c cs ih =>
    have hc : c ≠ ':' := fun hh => h (hh ▸ List.mem_cons_self c cs)
    have hcs : ':' ∉ cs := fun hh => h (List.mem_cons_of_mem c hh)
    rw [List.cons_append, splitColon_cons, ih hcs]
    simp [hc]

theorem joinColon_splitColon (l : List Char) : joinColon (splitColon l) = l := by
  induction l with
  | nil => rfl
  | cons c cs ih =>
    simp only [splitColon]
    cases hsp : splitColon cs with
    | nil => exact absurd hsp (splitColon_ne_nil cs)
    | cons w ws =>
      rw [hsp] at ih
      by_cases hc : c = ':'
      · subst hc
        simp [joinColon_cons_cons, ih]
      · simp only [if_neg hc]
        cases ws with
        | nil =>
          rw [joinColon_single] at ih ⊢
          rw [ih]
        | cons x xs =>
          rw [joinColon_cons_cons] at ih ⊢
          rw [List.cons_append, ih]

/-- The `set` command word. -/
def setTok : List Char := ['s', 'e', 't']

/-- The `prompt` command word. -/
def promptTok : List Char := ['p', 'r', 'o', 'm', 'p', 't']

/-- Modelled from the spec: the commands of the scripting mini-language
(`set:piece:param:value`, `prompt:...`). -/
inductive ScriptCommand where
  | setCmd (piece prm value : List Char)
  | promptCmd (text : List Char)
  deriving DecidableEq

/-- Modelled from the spec: parsing one script line into a command; the word
before the first `:` selects the command, a `set` line names a piece, a param
and a value (the value may itself contain `:`), a `prompt` line carries the
prompt text. -/
def parseLine (line : List Char) : Option ScriptCommand :=
  match splitColon line with
  | [] => none
  | cmd :: rest =>
    if cmd = setTok then
      match rest with
      | piece :: prm :: restv =>
        match restv with
        | [] => none
        | _ :: _ => some (ScriptCommand.setCmd piece prm (joinColon restv))
      | _ => none
    else if cmd = promptTok then
      match rest with
      | [] => none
      | _ :: _ => some (ScriptCommand.promptCmd (joinColon rest))
    else none

/-- Association-list lookup by name (first match). -/
def lookupAssoc {β : Type} (k : List Char) : List (List Char × β) → Option β
  | [] => none
  | kb :: rest => if kb.1 = k then some kb.2 else lookupAssoc k rest

/-- Updating the first association carrying the given name. -/
def updateAssoc {β : Type} (k : List Char) (f : β → β) :
    List (List Char × β) → List (List Char × β)
  | [] => []
  | kb :: rest => if kb.1 = k then (kb.1, f kb.2) :: rest else kb :: updateAssoc k f rest

theorem lookupAssoc_updateAssoc {β : Type} (k : List Char) (f : β → β)
    (l : List (List Char × β)) :
    lookupAssoc k (updateAssoc k f l) = (lookupAssoc k l).map f := by
  induction l with
  | nil => rfl
  | cons kb rest ih =>
    by_cases h : kb.1 = k
    · simp [updateAssoc, lookupAssoc, h]
    · simp [updateAssoc, lookupAssoc, h, ih]

/-- Modelled from the spec: a Piece owns a mapping from name to param (script
values are strings, modelled as character lists). -/
structure Piece (ε : Type) where
  params : List (List Char × BaseParam (List Char) ε)

/-- Modelled from the spec: a Puzzle maps piece names to Piece instances. -/
structure Puzzle (ε : Type) where
  pieces : List (List Char × Piece ε)

/-- The named piece's named param, when both exist. -/
def lookupParam (pz : Puzzle ε) (piece prm : List Char) :
    Option (BaseParam (List Char) ε) :=
  (lookupAssoc piece pz.pieces).bind fun pc => lookupAssoc prm pc.params

/-- Dispatching a script `set`: `set_value` on the named piece's named param. -/
def setInPuzzle (pz : Puzzle ε) (piece prm value : List Char) : Puzzle ε :=
  ⟨updateAssoc piece
    (fun pc => ⟨updateAssoc prm (fun bp => (set_value bp value).state) pc.params⟩)
    pz.pieces⟩

/-- Effects observable from running a script. -/
inductive ScriptEffect where
  | didSet (piece prm value : List Char)
  | didPrompt (text : List Char)
  | unknownLine (line : List Char)
  deriving DecidableEq

/-- One script line: parse it and dispatch the command. -/
def runLine (pz : Puzzle ε) (line : List Char) : Puzzle ε × List ScriptEffect :=
  match parseLine line with
  | some (ScriptCommand.setCmd piece prm value) =>
    (setInPuzzle pz piece prm value, [ScriptEffect.didSet piece prm value])
  | some (ScriptCommand.promptCmd text) => (pz, [ScriptEffect.didPrompt text])
  | none => (pz, [ScriptEffect.unknownLine line])

/-- Modelled from the spec: `puzzlepiece.parse.run` (module `parse.py` absent
from the sources) interprets a script line by line, dispatching each line. -/
def run (pz : Puzzle ε) : List (List Char) → Puzzle ε × List ScriptEffect
  | [] => (pz, [])
  | l :: ls =>
    ((run (runLine pz l).1 ls).1, (runLine pz l).2 ++ (run (runLine pz l).1 ls).2)

/-- The text of a `set:piece:param:value` line. -/
def setLine (piece prm value : List Char) : List Char :=
  setTok ++ ':' :: (piece ++ ':' :: (prm ++ ':' :: value))

/-- The text of a `prompt:text` line. -/
def promptLine (text : List Char) : List Char :=
  promptTok ++ ':' :: text

theorem parseLine_setLine (piece prm value : List Char)
    (h1 : ':' ∉ piece) (h2 : ':' ∉ prm) :
    parseLine (setLine piece prm value) = some (ScriptCommand.setCmd piece prm value) := by
  have hs : splitColon (setLine piece prm value)
      = setTok :: piece :: prm :: splitColon value := by
    rw [setLine, splitColon_append _ _ (by decide), splitColon_append _ _ h1,
      splitColon_append _ _ h2]
  cases hsv : splitColon value with
  | nil => exact absurd hsv (splitColon_ne_nil value)
  | cons w ws =>
    have hj : joinColon (w :: ws) = value := by rw [← hsv, joinColon_splitColon]
    rw [hsv] at hs
    simp [parseLine, hs, hj]

theorem parseLine_promptLine (text : List Char) :
    parseLine (promptLine text) = some (ScriptCommand.promptCmd text) := by
  have hs : splitColon (promptLine text) = promptTok :: splitColon text := by
    rw [promptLine, splitColon_append _ _ (by decide)]
  have hne : promptTok ≠ setTok := by decide
  cases hsv : splitColon text with
  | nil => exact absurd hsv (splitColon_ne_nil text)
  | cons w ws =>
    have hj : joinColon (w :: ws) = text := by rw [← hsv, joinColon_splitColon]
    rw [hsv] at hs
    simp [parseLine, hs, hj, hne]

/-- C6: the interpreter works line by line; a `set:piece:param:value` line
parses to and dispatches a set of the named piece's named param to the given
value, and a `prompt:...` line parses to and dispatches the prompt
operation. -/
theorem c6_script_lines_dispatch (pz : Puzzle ε) (piece prm value text l : List Char)
    (ls : List (List Char)) (h1 : ':' ∉ piece) (h2 : ':' ∉ prm) :
    parseLine (setLine piece prm value) = some (ScriptCommand.setCmd piece prm value)
    ∧ parseLine (promptLine text) = some (ScriptCommand.promptCmd text)
    ∧ runLine pz (setLine piece prm value)
        = (setInPuzzle pz piece prm value, [ScriptEffect.didSet piece prm value])
    ∧ runLine pz (promptLine text) = (pz, [ScriptEffect.didPrompt text])
    ∧ lookupParam (setInPuzzle pz piece prm value) piece prm
        = (lookupParam pz piece prm).map (fun bp => (set_value bp value).state)
    ∧ run pz (l :: ls)
        = ((run (runLine pz l).1 ls).1, (runLine pz l).2 ++ (run (runLine pz l).1 ls).2) := by
  refine ⟨parseLine_setLine piece prm value h1 h2, parseLine_promptLine text, ?_, ?_, ?_, rfl⟩
  · simp [runLine, parseLine_setLine piece prm value h1 h2]
  · simp [runLine, parseLine_promptLine text]
  · rw [lookupParam, lookupParam, setInPuzzle]
    simp only [lookupAssoc_updateAssoc]
    cases lookupAssoc piece pz.pieces with
    | none => rfl
    | some pc =>
      simp [lookupAssoc_updateAssoc]

/-- A plain string-valued parameter with no getter or setter. -/
def wStrParam : BaseParam (List Char) Nat := mkParam [] none none

/-- A one-piece puzzle: piece `a` holding param `b`. -/
def wPuzzle : Puzzle Nat := ⟨[(['a'], ⟨[(['b'], wStrParam)]⟩)]⟩

/-- Witness for C6 on a concrete puzzle and script line (the value even
contains a `:` of its own). -/
theorem c6_witness :
    parseLine (setLine ['a'] ['b'] ['c', ':', 'd'])
      = some (ScriptCommand.setCmd ['a'] ['b'] ['c', ':', 'd'])
    ∧ lookupParam (setInPuzzle wPuzzle ['a'] ['b'] ['c', ':', 'd']) ['a'] ['b']
      = (lookupParam wPuzzle ['a'] ['b']).map
          (fun bp => (set_value bp ['c', ':', 'd']).state) := by
  have h := c6_script_lines_dispatch wPuzzle ['a'] ['b'] ['c', ':', 'd'] ['t'] [] []
    (by decide) (by decide)
  exact ⟨h.1, h.2.2.2.2.1⟩

end Puzzlepiece
